import Mathlib

set_option maxHeartbeats 1600000
set_option maxRecDepth 10000
set_option exponentiation.threshold 2500

/-! Shallow embedding of the PyMiniRacer host-side bridge
(`src/src/py_mini_racer/py_mini_racer.py`): the tagged wire-value protocol
(`_RawValue`, `_MiniRacerTypes`, `_ERRORS`), the host-to-wire marshaler
(`_Context._python_to_value_handle`), the wire-to-host marshaler
(`_ValueHandle.to_python` and `to_python_or_raise`), the array proxy
(`JSArray.__delitem__` / `JSArray.insert`), the callback dispatcher
(`_Context.__init__`'s `mr_callback`, `_run_mr_task`, `_make_js_callback`),
the blocking future (`_SyncFuture`), process-wide initialization
(`init_mini_racer`), and promise-rejection messages (`_get_exception_msg`,
`JSPromiseError`).

Numeric modelling: Python ints are `Int`; an IEEE-754 binary64 value is a
`PyFloat` — a finite double carried as an exact rational, or NaN or an
infinity.  The int-to-double conversion performed by Python/ctypes is the
executable round-to-nearest-even function `doubleOfInt`, the rounding of a
rational to the nearest double (used on the datetime boundary, where
`timestamp()`, `* 1000.0` and `/ 1000.0` each round) is `roundDouble`, and
the silent two's-complement wrap ctypes applies to out-of-range `c_int64` and
`c_int32` arguments is `c_int64_of_int` / `c_int32_of_int`.  Python strings
are sequences of Unicode code points (`List Nat`), and the UTF-8 byte payload
of a wire string is computed by an executable codec defined below. -/

-- ### Wire type tags, from class `_MiniRacerTypes` (py_mini_racer.py:1360).

def MiniRacerTypes.invalid : Nat := 0
def MiniRacerTypes.null : Nat := 1
def MiniRacerTypes.bool : Nat := 2
def MiniRacerTypes.integer : Nat := 3
def MiniRacerTypes.double : Nat := 4
def MiniRacerTypes.str_utf8 : Nat := 5
def MiniRacerTypes.array : Nat := 6
def MiniRacerTypes.hash : Nat := 7
def MiniRacerTypes.date : Nat := 8
def MiniRacerTypes.symbol : Nat := 9
def MiniRacerTypes.object : Nat := 10
def MiniRacerTypes.undefined : Nat := 11
def MiniRacerTypes.function : Nat := 100
def MiniRacerTypes.shared_array_buffer : Nat := 101
def MiniRacerTypes.array_buffer : Nat := 102
def MiniRacerTypes.promise : Nat := 103
def MiniRacerTypes.execute_exception : Nat := 200
def MiniRacerTypes.parse_exception : Nat := 201
def MiniRacerTypes.oom_exception : Nat := 202
def MiniRacerTypes.timeout_exception : Nat := 203
def MiniRacerTypes.terminated_exception : Nat := 204
def MiniRacerTypes.value_exception : Nat := 205
def MiniRacerTypes.key_exception : Nat := 206

-- ### The wire value record, from `_RawValue` / `_RawValueUnion`
-- (py_mini_racer.py:313).  The ctypes union is modelled as a record carrying
-- each member; `bytes_val` and `value_ptr` share the pointer member of the
-- union, so buffers reuse `bytesVal` here.

-- An IEEE-754 binary64 value: a finite double is an exact rational (its
-- exponent range is not bounded in this model), and NaN and the infinities
-- are explicit, since Python floats include them and `nan == nan` is false.
inductive PyFloat where
  | finite (q : ℚ)
  | inf
  | negInf
  | nan
  deriving DecidableEq

structure RawValue where
  type : Nat
  intVal : Int
  doubleVal : PyFloat
  bytesVal : List Nat
  len : Nat
  deriving DecidableEq

inductive JSObjKind where
  | mappedObject
  | array
  | function
  | symbol
  | promise
  deriving DecidableEq

-- ### Python-side values, from the union `PythonJSConvertedTypes`
-- (py_mini_racer.py:154).  A `jsObj` is a handle-backed proxy (`JSObject` and
-- its subclasses) retaining the wire value handle it was decoded from.

inductive PyValue where
  | none
  | undefined
  | bool (b : Bool)
  | int (n : Int)
  | float (x : PyFloat)
  | str (s : List Nat)
  | datetime (usec : Int)
  | memview (bytes : List Nat)
  | jsObj (kind : JSObjKind) (handle : RawValue)
  deriving DecidableEq

-- Python `isinstance` tests used by the encoder's dispatch chain.  In Python,
-- `bool` is a subclass of `int`, so `isinstance(True, int)` holds; the model
-- preserves that.

def isinstance_JSObject : PyValue → Bool
  | .jsObj _ _ => true
  | _ => false

def is_None : PyValue → Bool
  | .none => true
  | _ => false

def is_JSUndefined : PyValue → Bool
  | .undefined => true
  | _ => false

def isinstance_bool : PyValue → Bool
  | .bool _ => true
  | _ => false

def isinstance_int : PyValue → Bool
  | .bool _ => true
  | .int _ => true
  | _ => false

def isinstance_float : PyValue → Bool
  | .float _ => true
  | _ => false

def isinstance_str : PyValue → Bool
  | .str _ => true
  | _ => false

def isinstance_datetime : PyValue → Bool
  | .datetime _ => true
  | _ => false

-- `isinstance(v, JSMappedObject)`: holds for `JSMappedObject`, `JSFunction`
-- and `JSSymbol` proxies, but not `JSArray` or `JSPromise` (py_mini_racer.py:167).
def isinstance_JSMappedObject : PyValue → Bool
  | .jsObj .mappedObject _ => true
  | .jsObj .function _ => true
  | .jsObj .symbol _ => true
  | _ => false

def pyBoolVal : PyValue → Bool
  | .bool b => b
  | _ => false

def pyIntVal : PyValue → Int
  | .bool b => if b then 1 else 0
  | .int n => n
  | _ => 0

def pyFloatVal : PyValue → PyFloat
  | .float x => x
  | _ => PyFloat.finite 0

def pyStrVal : PyValue → List Nat
  | .str s => s
  | _ => []

def pyObjHandle : PyValue → RawValue
  | .jsObj _ h => h
  | _ => RawValue.mk 0 0 (PyFloat.finite 0) [] 0

-- ### UTF-8 codec.  The encoder models `str.encode("utf-8")`, the decoder
-- models `bytes.decode("utf-8")`; both work on code-point / byte lists with an
-- explicit length (no NUL-termination), as the wire protocol requires.

-- A Unicode scalar value (Python `str.encode` raises `UnicodeEncodeError` on
-- lone surrogates).
def validScalar (n : Nat) : Bool :=
  decide (n < 0x110000) && !(decide (0xD800 ≤ n) && decide (n < 0xE000))

def utf8EncodeChar (n : Nat) : List Nat :=
  if n < 0x80 then [n]
  else if n < 0x800 then [0xC0 + n / 0x40, 0x80 + n % 0x40]
  else if n < 0x10000 then [0xE0 + n / 0x1000, 0x80 + n / 0x40 % 0x40, 0x80 + n % 0x40]
  else [0xF0 + n / 0x40000, 0x80 + n / 0x1000 % 0x40, 0x80 + n / 0x40 % 0x40, 0x80 + n % 0x40]

def utf8Encode (s : List Nat) : List Nat := (s.map utf8EncodeChar).flatten

def contByte (b : Nat) : Bool := decide (0x80 ≤ b) && decide (b < 0xC0)

def utf8DecAux : Nat → List Nat → Option (List Nat)
  | _, [] => some []
  | 0, _ :: _ => Option.none
  | fuel + 1, b :: rest =>
    if b < 0x80 then Option.map (fun t => b :: t) (utf8DecAux fuel rest)
    else if b < 0xC0 then Option.none
    else if b < 0xE0 then
      match rest with
      | b1 :: rest2 =>
        if contByte b1 then
          Option.map (fun t => ((b - 0xC0) * 0x40 + (b1 - 0x80)) :: t) (utf8DecAux fuel rest2)
        else Option.none
      | [] => Option.none
    else if b < 0xF0 then
      match rest with
      | b1 :: b2 :: rest3 =>
        if contByte b1 && contByte b2 then
          Option.map (fun t => ((b - 0xE0) * 0x1000 + (b1 - 0x80) * 0x40 + (b2 - 0x80)) :: t)
            (utf8DecAux fuel rest3)
        else Option.none
      | _ => Option.none
    else
      match rest with
      | b1 :: b2 :: b3 :: rest4 =>
        if contByte b1 && contByte b2 && contByte b3 then
          Option.map
            (fun t =>
              ((b - 0xF0) * 0x40000 + (b1 - 0x80) * 0x1000 + (b2 - 0x80) * 0x40 + (b3 - 0x80)) :: t)
            (utf8DecAux fuel rest4)
        else Option.none
      | _ => Option.none

def utf8Dec (bytes : List Nat) : Option (List Nat) := utf8DecAux bytes.length bytes

-- Code points of a Lean string literal (used for fixed message texts).
def cps (s : String) : List Nat := s.data.map Char.toNat

-- Exact rational arithmetic, written through `Rat.divInt` and integer
-- operations so that every function below evaluates by kernel reduction
-- (the ambient `Rat.mul`/`Rat.add` definitions are irreducible).

def qOfInt (n : Int) : ℚ := Rat.divInt n 1

-- `q * m` for an integer factor `m`.
def qMulInt (q : ℚ) (m : Int) : ℚ := Rat.divInt (q.num * m) (q.den : Int)

-- `q / m` for a nonzero integer divisor `m`.
def qDivInt (q : ℚ) (m : Int) : ℚ := Rat.divInt q.num ((q.den : Int) * m)

-- ### IEEE-754 binary64 rounding of integers, modelling the implicit
-- `float(obj)` conversion ctypes performs when a Python int is passed for a
-- `c_double` argument (`mr_alloc_double_val`).  An integer is rounded to 53
-- significant bits with round-to-nearest, ties-to-even.

-- Bit length of `m`, computed with explicit fuel so that the kernel can
-- evaluate it; `excessAux 1100 m` is exact for every `m < 2 ^ 1100`.
def excessAux : Nat → Nat → Nat
  | 0, _ => 0
  | fuel + 1, m => if m = 0 then 0 else excessAux fuel (m / 2) + 1

-- Number of significant bits of `n` beyond 53 (0 when `n` fits in 53 bits);
-- exact for `n < 2 ^ 1153`.
def excessBits (n : Nat) : Nat := excessAux 1100 (n / 2 ^ 53)

-- Bit length of `n`, exact for `n < 2 ^ 2200`.
def bitLen (n : Nat) : Nat := excessAux 2200 n

-- Round `n` to a multiple of `2 ^ k`, ties to the even multiple.
def roundHalfEven (n : Nat) (k : Nat) : Nat :=
  if k = 0 then n
  else
    let p := 2 ^ k
    let q := n / p
    let r := n % p
    if r < p / 2 then q * p
    else if p / 2 < r then (q + 1) * p
    else if q % 2 = 0 then q * p
    else (q + 1) * p

-- The binary64 value nearest to `n` (ignoring exponent overflow, which the
-- caller checks).
def doubleOfNat (n : Nat) : Nat := roundHalfEven n (excessBits n)

def doubleOfInt (x : Int) : Int :=
  if 0 ≤ x then (doubleOfNat x.toNat : Int) else -((doubleOfNat (-x).toNat : Int))

-- Host-side exceptions the encoder can raise.
inductive EncErr where
  | jsConversionException
  | overflowError
  | unicodeEncodeError
  deriving DecidableEq

-- ctypes argument conversion for the fixed-width integer parameters of the
-- DLL bindings: out-of-range Python ints silently wrap (two's complement),
-- as `mr_alloc_int_val`'s `c_int64` and `mr_splice_array`'s `c_int32`
-- arguments do.
def c_int64_of_int (x : Int) : Int := (x + 2 ^ 63) % 2 ^ 64 - 2 ^ 63

def c_int32_of_int (x : Int) : Int := (x + 2 ^ 31) % 2 ^ 32 - 2 ^ 31

instance exceptDecEq {e a : Type} [DecidableEq e] [DecidableEq a] : DecidableEq (Except e a) :=
  fun x y =>
    match x, y with
    | .error u, .error v => if h : u = v then .isTrue (by rw [h]) else .isFalse (by simp [h])
    | .ok u, .ok v => if h : u = v then .isTrue (by rw [h]) else .isFalse (by simp [h])
    | .error _, .ok _ => .isFalse (by simp)
    | .ok _, .error _ => .isFalse (by simp)

-- `float(x)` for a Python int `x`: round to binary64, raising `OverflowError`
-- when the rounded magnitude reaches `2 ^ 1024` (doubles overflow to
-- infinity there).  Inputs at or beyond `2 ^ 1100` always overflow and are
-- rejected up front, keeping `excessBits` within its exact range.
def c_double_of_int (x : Int) : Except EncErr ℚ :=
  if 2 ^ 1100 ≤ x.natAbs then Except.error EncErr.overflowError
  else
    let r := doubleOfInt x
    if 2 ^ 1024 ≤ r.natAbs then Except.error EncErr.overflowError
    else Except.ok (qOfInt r)

-- ### Datetime boundary conversions.  A Python `datetime` is modelled by its
-- POSIX timestamp in microseconds (its resolution); `datetime.timestamp()`
-- yields seconds, and `datetime.fromtimestamp` rounds fractional seconds to
-- the nearest microsecond, ties to even (CPython's rounding).

-- Round a rational to the nearest integer, ties to even, computed from the
-- numerator and denominator: `f` is the floor and `r2 / 2` the fractional
-- part times the denominator.
def roundHalfEvenQ (q : ℚ) : Int :=
  let n := q.num
  let d : Int := (q.den : Int)
  let f := n.fdiv d
  let r2 := 2 * (n - f * d)
  if r2 < d then f
  else if d < r2 then f + 1
  else if f % 2 = 0 then f
  else f + 1

-- `q * 2 ^ k` for an integer exponent `k`, via `Rat.divInt`.
def qMulPow2 (q : ℚ) (k : Int) : ℚ :=
  if 0 ≤ k then Rat.divInt (q.num * 2 ^ k.toNat) (q.den : Int)
  else Rat.divInt q.num ((q.den : Int) * 2 ^ (-k).toNat)

-- Round a rational to the nearest IEEE-754 binary64 value (round to nearest,
-- ties to even; the exponent range is unbounded in this model, so overflow
-- and subnormals do not arise for the magnitudes used here).  `e1` puts
-- `q / 2 ^ e1` in `[2 ^ 52, 2 ^ 54)`; if rounding at that granularity yields
-- a mantissa wider than 53 bits, the value lies in the upper binade and is
-- re-rounded one exponent higher.
def roundDouble (q : ℚ) : ℚ :=
  if q.num = 0 then 0
  else
    let e1 : Int := (bitLen q.num.natAbs : Int) - (bitLen q.den : Int) - 53
    let m1 := roundHalfEvenQ (qMulPow2 q (-e1))
    if m1.natAbs ≤ 2 ^ 53 then qMulPow2 (qOfInt m1) e1
    else qMulPow2 (qOfInt (roundHalfEvenQ (qMulPow2 q (-(e1 + 1))))) (e1 + 1)

-- Microseconds of `datetime.fromtimestamp(sec, timezone.utc)` (CPython rounds
-- the fractional second to the nearest microsecond, ties to even; that final
-- scaling by 10^6 is modelled exactly).
def fromtimestampUsec (sec : ℚ) : Int := roundHalfEvenQ (qMulInt sec 1000000)

-- `datetime.timestamp()` in seconds for a datetime of `usec` microseconds.
def timestampOfUsec (usec : Int) : ℚ := qDivInt (qOfInt usec) 1000000

-- ### Wire value allocation, from `mr_alloc_int_val`, `mr_alloc_double_val`
-- and `mr_alloc_string_val` (py_mini_racer.py:457).

def mr_alloc_int_val (v : Int) (typ : Nat) : RawValue :=
  RawValue.mk typ v (PyFloat.finite 0) [] 0

def mr_alloc_double_val (d : PyFloat) (typ : Nat) : RawValue :=
  RawValue.mk typ 0 d [] 0

def mr_alloc_string_val (b : List Nat) (length : Nat) (typ : Nat) : RawValue :=
  RawValue.mk typ 0 (PyFloat.finite 0) b length

-- ### The error table `_ERRORS` (py_mini_racer.py:1394), mapping error type
-- tags to host exception classes and fallback messages.  As in the source, it
-- has entries for the parse, execute, OOM, terminated, key and value tags and
-- no entry for `timeout_exception`.

inductive ErrKlass where
  | jsParseException
  | jsEvalException
  | jsOOMException
  | jsTimeoutException
  | jsTerminatedException
  | jsKeyError
  | jsValueError
  deriving DecidableEq

def ERRORS (t : Nat) : Option (ErrKlass × String) :=
  if t = MiniRacerTypes.parse_exception then
    some (ErrKlass.jsParseException, "Unknown JavaScript error during parse")
  else if t = MiniRacerTypes.execute_exception then
    some (ErrKlass.jsEvalException, "Uknown JavaScript error during execution")
  else if t = MiniRacerTypes.oom_exception then
    some (ErrKlass.jsOOMException, "JavaScript memory limit reached")
  else if t = MiniRacerTypes.terminated_exception then
    some (ErrKlass.jsTerminatedException, "JavaScript was terminated")
  else if t = MiniRacerTypes.key_exception then
    some (ErrKlass.jsKeyError, "No such key found in object")
  else if t = MiniRacerTypes.value_exception then
    some (ErrKlass.jsValueError, "Bad value passed to JavaScript engine")
  else Option.none

-- ### Wire-to-host decoding, from `_ValueHandle.to_python`
-- (py_mini_racer.py:367).  For an error tag found in `_ERRORS` it returns the
-- exception object (value `errVal`); for an unrecognized tag it raises
-- `JSConversionException`; decoding the UTF-8 message or string payload can
-- raise `UnicodeDecodeError`.

inductive DecodeResult where
  | val (v : PyValue)
  | errVal (k : ErrKlass) (msg : List Nat)
  | raisedConversion
  | raisedUnicodeDecode
  | raisedValueError
  deriving DecidableEq

def to_python (h : RawValue) : DecodeResult :=
  match ERRORS h.type with
  | some (klass, genericMsg) =>
    match utf8Dec (h.bytesVal.take h.len) with
    | Option.none => DecodeResult.raisedUnicodeDecode
    | some m => DecodeResult.errVal klass (if m.isEmpty then cps genericMsg else m)
  | Option.none =>
    if h.type = MiniRacerTypes.null then .val .none
    else if h.type = MiniRacerTypes.undefined then .val .undefined
    else if h.type = MiniRacerTypes.bool then .val (.bool (h.intVal == 1))
    else if h.type = MiniRacerTypes.integer then .val (.int h.intVal)
    else if h.type = MiniRacerTypes.double then .val (.float h.doubleVal)
    else if h.type = MiniRacerTypes.str_utf8 then
      match utf8Dec (h.bytesVal.take h.len) with
      | Option.none => DecodeResult.raisedUnicodeDecode
      | some m => DecodeResult.val (.str m)
    else if h.type = MiniRacerTypes.function then .val (.jsObj .function h)
    else if h.type = MiniRacerTypes.date then
      -- `datetime.fromtimestamp(timestamp / 1000.0, timezone.utc)`: the
      -- division rounds through binary64; `fromtimestamp` raises ValueError
      -- on a NaN or infinite timestamp.
      match h.doubleVal with
      | .finite q => .val (.datetime (fromtimestampUsec (roundDouble (qDivInt q 1000))))
      | _ => DecodeResult.raisedValueError
    else if h.type = MiniRacerTypes.symbol then .val (.jsObj .symbol h)
    else if h.type = MiniRacerTypes.shared_array_buffer ∨ h.type = MiniRacerTypes.array_buffer then
      .val (.memview (h.bytesVal.take h.len))
    else if h.type = MiniRacerTypes.promise then .val (.jsObj .promise h)
    else if h.type = MiniRacerTypes.array then .val (.jsObj .array h)
    else if h.type = MiniRacerTypes.object then .val (.jsObj .mappedObject h)
    else DecodeResult.raisedConversion

-- `_ValueHandle.to_python_or_raise` (py_mini_racer.py:361): raise the decoded
-- exception instead of returning it.
inductive OrRaiseResult where
  | ok (v : PyValue)
  | raisedJS (k : ErrKlass) (msg : List Nat)
  | raisedConversion
  | raisedUnicodeDecode
  | raisedValueError
  deriving DecidableEq

def to_python_or_raise (h : RawValue) : OrRaiseResult :=
  match to_python h with
  | .val v => .ok v
  | .errVal k m => .raisedJS k m
  | .raisedConversion => .raisedConversion
  | .raisedUnicodeDecode => .raisedUnicodeDecode
  | .raisedValueError => .raisedValueError

-- ### Host-to-wire encoding, from `_Context._python_to_value_handle`
-- (py_mini_racer.py:1051), with the dispatch arms in source order.  The int
-- guard is transcribed exactly as written at line 1083:
-- `if obj - 2**31 <= obj < 2**31`.  The `c_int64` range check models ctypes
-- rejecting an out-of-range argument to `mr_alloc_int_val`.

def utf8EncodeStrict (s : List Nat) : Except EncErr (List Nat) :=
  if s.all validScalar then Except.ok (utf8Encode s) else Except.error EncErr.unicodeEncodeError

def python_to_value_handle (obj : PyValue) : Except EncErr RawValue :=
  if isinstance_JSObject obj then Except.ok (pyObjHandle obj)
  else if is_None obj then Except.ok (mr_alloc_int_val 0 MiniRacerTypes.null)
  else if is_JSUndefined obj then Except.ok (mr_alloc_int_val 0 MiniRacerTypes.undefined)
  else if isinstance_bool obj then
    Except.ok (mr_alloc_int_val (if pyBoolVal obj then 1 else 0) MiniRacerTypes.bool)
  else if isinstance_int obj then
    let x := pyIntVal obj
    if x - 2 ^ 31 ≤ x ∧ x < 2 ^ 31 then
      Except.ok (mr_alloc_int_val (c_int64_of_int x) MiniRacerTypes.integer)
    else
      Except.map (fun d => mr_alloc_double_val (PyFloat.finite d) MiniRacerTypes.double)
        (c_double_of_int x)
  else if isinstance_float obj then
    Except.ok (mr_alloc_double_val (pyFloatVal obj) MiniRacerTypes.double)
  else if isinstance_str obj then
    Except.map (fun b => mr_alloc_string_val b b.length MiniRacerTypes.str_utf8)
      (utf8EncodeStrict (pyStrVal obj))
  else if isinstance_datetime obj then
    -- `obj.timestamp() * 1000.0`: the timestamp is the binary64 nearest to
    -- the exact seconds value, and the multiplication rounds again.
    Except.ok
      (mr_alloc_double_val
        (PyFloat.finite (roundDouble (qMulInt (roundDouble
          (timestampOfUsec (match obj with | .datetime u => u | _ => 0))) 1000)))
        MiniRacerTypes.date)
  else Except.error EncErr.jsConversionException

-- ### Python `==`, restricted to the types crossing the boundary: numeric
-- values (`bool`, `int`, `float`) compare by exact value across types,
-- strings, datetimes and memoryviews by content; `JSObject` proxies have no
-- `__eq__` and compare by identity, approximated here by handle equality.

def numVal : PyValue → Option PyFloat
  | .bool b => some (PyFloat.finite (if b then qOfInt 1 else qOfInt 0))
  | .int n => some (PyFloat.finite (qOfInt n))
  | .float x => some x
  | _ => Option.none

-- IEEE-754 equality on doubles: NaN compares unequal to everything,
-- including itself.
def pyFloatEq : PyFloat → PyFloat → Bool
  | .finite a, .finite b => decide (a = b)
  | .inf, .inf => true
  | .negInf, .negInf => true
  | _, _ => false

def pyEq (a b : PyValue) : Bool :=
  match numVal a, numVal b with
  | some x, some y => pyFloatEq x y
  | some _, Option.none => false
  | Option.none, some _ => false
  | Option.none, Option.none =>
    match a, b with
    | .none, .none => true
    | .undefined, .undefined => true
    | .str s, .str t => decide (s = t)
    | .datetime u, .datetime v => decide (u = v)
    | .memview b1, .memview b2 => decide (b1 = b2)
    | .jsObj k1 r1, .jsObj k2 r2 => decide (k1 = k2) && decide (r1 = r2)
    | _, _ => false

-- Encode-then-decode round trip and its success predicate
-- (`decode(encode(x)) == x`).

def pyRoundtrip (v : PyValue) : Except EncErr DecodeResult :=
  Except.map to_python (python_to_value_handle v)

def pyRoundtripOk (v : PyValue) : Bool :=
  match pyRoundtrip v with
  | .ok (.val w) => pyEq w v
  | _ => false

-- ### Array proxy operations, from `JSArray.__delitem__` (py_mini_racer.py:228),
-- `JSArray.insert` (py_mini_racer.py:244), `_Context.del_from_array`
-- (py_mini_racer.py:945) and `_Context.array_insert` (py_mini_racer.py:953).

/-- Modelled from the spec: the engine's array-splice primitive
`mr_splice_array` is implemented in C++ (`mini_racer.cc`), which is not part
of the Python sources; per the spec it follows JavaScript
`Array.prototype.splice` semantics and "would silently clamp" an out-of-range
start index (negative starts count from the end, then are clamped to
`[0, len]`).  `ins` is the optional single element inserted at the splice
point (`None` for deletion). -/
def spliceArray (l : List PyValue) (start : Int) (deleteCount : Nat) (ins : Option PyValue) :
    List PyValue :=
  let len : Int := l.length
  let actualStart : Nat := (if start < 0 then max (len + start) 0 else min start len).toNat
  l.take actualStart ++ ins.toList ++ l.drop (actualStart + deleteCount)

-- Outcome of an array proxy mutation: `indexError` means `JSArrayIndexError`
-- was raised locally, before any call into the engine; `spliced` means
-- `mr_splice_array` was invoked and these are the resulting array contents.
inductive ArrayOpOutcome where
  | indexError
  | spliced (l : List PyValue)
  deriving DecidableEq

-- `JSArray.__delitem__`: bounds-check locally, then splice out one element;
-- the index passed to `mr_splice_array` goes through its `c_int32` argument
-- conversion (py_mini_racer.py:539), which silently wraps.
def JSArray.delitem (l : List PyValue) (index : Int) : ArrayOpOutcome :=
  if index ≥ (l.length : Int) ∨ index < -(l.length : Int) then ArrayOpOutcome.indexError
  else ArrayOpOutcome.spliced (spliceArray l (c_int32_of_int index) 1 Option.none)

-- `JSArray.insert`: delegates straight to `_Context.array_insert`, which
-- splices with delete count 0; there is no local bounds check, and the index
-- goes through the same `c_int32` wrap before the engine clamps it.
def JSArray.insert (l : List PyValue) (index : Int) (v : PyValue) : ArrayOpOutcome :=
  ArrayOpOutcome.spliced (spliceArray l (c_int32_of_int index) 0 (some v))

-- ### Callback dispatcher, from `_Context.__init__` (py_mini_racer.py:759).
-- `_active_callbacks` is a dict from callback id to continuation, modelled as
-- an association list with fresh keys consed on; `_next_callback_id` is an
-- `itertools.count()`.

structure Dispatcher (κ : Type) where
  nextCallbackId : Nat
  activeCallbacks : List (Nat × κ)

-- Dict lookup `self._active_callbacks[callback_id]`.
def lookupCb {κ : Type} (d : Dispatcher κ) (id : Nat) : Option κ :=
  Option.map (fun p => p.2) (d.activeCallbacks.find? (fun p => p.1 == id))

-- `callback_id = next(self._next_callback_id); self._active_callbacks[callback_id] = f`.
def registerCb {κ : Type} (d : Dispatcher κ) (k : κ) : Dispatcher κ :=
  Dispatcher.mk (d.nextCallbackId + 1) ((d.nextCallbackId, k) :: d.activeCallbacks)

-- `self._active_callbacks.pop(callback_id)`: the Bool reports whether the key
-- was present (`dict.pop` without a default raises `KeyError` otherwise).
def popCb {κ : Type} (d : Dispatcher κ) (id : Nat) : Dispatcher κ × Bool :=
  (Dispatcher.mk d.nextCallbackId (d.activeCallbacks.filter (fun p => p.1 != id)),
    d.activeCallbacks.any (fun p => p.1 == id))

-- The shared completion callback `mr_callback` (py_mini_racer.py:769): it
-- looks the continuation up WITHOUT removing it, and leaves the map unchanged;
-- the returned option is the continuation invoked with the decoded value
-- (`None` models the `KeyError` a delivery after removal would hit).
def mr_callback {κ : Type} (d : Dispatcher κ) (id : Nat) : Dispatcher κ × Option κ :=
  (d, lookupCb d id)

-- Invariant maintained by the counter: every registered id is below the next
-- fresh id, hence fresh ids are never reused.
def cbInvariant {κ : Type} (d : Dispatcher κ) : Bool :=
  d.activeCallbacks.all (fun p => p.1 < d.nextCallbackId)

-- ### The blocking future `_SyncFuture` (py_mini_racer.py:667) and the
-- blocking promise consumption path `_Context.get_from_promise`
-- (py_mini_racer.py:852).

structure SyncFuture (α ε : Type) where
  settled : Bool
  res : Option α
  exc : Option ε

inductive SyncGetResult (α ε : Type) where
  | returned (a : Option α)
  | raisedExc (e : ε)
  | raisedTimeout
  deriving DecidableEq

-- `_SyncFuture.get(timeout)`: `while not settled: if not cv.wait(timeout):
-- raise JSTimeoutException`.  Each entry of `waits` is the value returned by
-- one `cv.wait(timeout)` call (`false` = the timeout elapsed); the future
-- state is immutable here, modelling a continuation that is never completed
-- during the call.  `none` means the call is still blocked (all waits
-- returned true and the list ran out, as with `timeout=None` and no settle).
def syncGet {α ε : Type} (f : SyncFuture α ε) (waits : List Bool) :
    Option (SyncGetResult α ε) :=
  if f.settled then
    some
      (match f.exc with
      | some e => SyncGetResult.raisedExc e
      | Option.none => SyncGetResult.returned f.res)
  else
    match waits with
    | [] => Option.none
    | w :: rest => if w then syncGet f rest else some SyncGetResult.raisedTimeout

-- `_Context._attach_callbacks_to_promise` registers two continuations (the
-- resolve and reject shims made by `_make_js_callback`) under the next two
-- callback ids; the `then` round trip into the engine is out of scope here.
def attachPromiseCallbacks {κ : Type} (d : Dispatcher κ) (onResolved onRejected : κ) :
    Dispatcher κ :=
  registerCb (registerCb d onResolved) onRejected

-- `_Context.get_from_promise(promise, timeout)` for a promise that does not
-- settle during the call: attach the callbacks, then block on the future.  On
-- a timeout the exception propagates out of `get` and `get_from_promise`
-- without running any cleanup, so the dispatcher state is returned unchanged
-- from the attachment.
def get_from_promise {κ α ε : Type} (d : Dispatcher κ) (onResolved onRejected : κ)
    (f : SyncFuture α ε) (waits : List Bool) :
    Dispatcher κ × Option (SyncGetResult α ε) :=
  (attachPromiseCallbacks d onResolved onRejected, syncGet f waits)

-- ### Process-wide initialization, from `init_mini_racer`
-- (py_mini_racer.py:642).  The global `_dll_handle` is the state; `fresh` is
-- the handle `_open_dll` would produce if it runs.  The returned Bool records
-- whether `_open_dll` ran.

structure InitState where
  dllHandle : Option Nat
  deriving DecidableEq

inductive InitOutcome where
  | ok (h : Nat)
  | raisedLibAlreadyInitializedError
  deriving DecidableEq

def init_mini_racer (s : InitState) (ignoreDuplicateInit : Bool) (fresh : Nat) :
    InitState × InitOutcome × Bool :=
  match s.dllHandle with
  | Option.none => (InitState.mk (some fresh), InitOutcome.ok fresh, true)
  | some h =>
    if ignoreDuplicateInit then (s, InitOutcome.ok h, false)
    else (s, InitOutcome.raisedLibAlreadyInitializedError, false)

-- ### Promise rejection messages, from `_get_exception_msg`
-- (py_mini_racer.py:62) and `JSPromiseError` (py_mini_racer.py:72).  Property
-- access and containment on a `JSMappedObject` round-trip into the engine
-- (`mr_get_object_item`, raising `JSKeyError` for a missing key, which
-- `MutableMapping.__contains__` catches); a rejection reason is therefore
-- viewed through its mapped-object flag, its engine-visible properties and
-- its `str()` rendering.

structure ReasonView where
  isMappedObject : Bool
  props : List (List Nat × PyValue)
  strForm : List Nat

-- The code points of "stack".
def stackKey : List Nat := [115, 116, 97, 99, 107]

def reasonGetProp (r : ReasonView) (k : List Nat) : Option PyValue :=
  Option.map (fun p => p.2) (r.props.find? (fun p => p.1 == k))

-- `"stack" in reason` via `__getitem__` / caught `JSKeyError`.
def reasonContains (r : ReasonView) (k : List Nat) : Bool :=
  (reasonGetProp r k).isSome

-- `_get_exception_msg(reason)`: `str(reason)` unless the reason is a
-- `JSMappedObject` containing the key "stack", in which case the stack
-- property is returned as-is (the `cast(str, ...)` is a no-op at runtime).
def get_exception_msg (r : ReasonView) : PyValue :=
  if r.isMappedObject = false then PyValue.str r.strForm
  else if reasonContains r stackKey then (reasonGetProp r stackKey).getD (PyValue.str r.strForm)
  else PyValue.str r.strForm

-- `JSPromiseError.__init__`: the f-string renders `_get_exception_msg`'s
-- result through Python `str()`, modelled by the parameter `strFn` (which is
-- the identity on values that already are strings).
def JSPromiseErrorMessage (strFn : PyValue → List Nat) (r : ReasonView) : List Nat :=
  cps "JavaScript rejected promise with reason: " ++ strFn (get_exception_msg r) ++ cps "\n"

-- A concrete `str()` used by witnesses: identity on strings, a fixed
-- placeholder elsewhere.
def pyStrModel : PyValue → List Nat
  | .str s => s
  | _ => cps "object"

-- ### Round-trip scope: the encode/decode round trip restricted to the values
-- it actually preserves (see the claim C4 theorems below).

def roundtrippable : PyValue → Bool
  | .none => true
  | .undefined => true
  | .bool _ => true
  | .int x =>
    decide ((-(2 ^ 63) ≤ x ∧ x < 2 ^ 31) ∨ (2 ^ 31 ≤ x ∧ doubleOfInt x = x ∧ x.natAbs < 2 ^ 1024))
  | .float PyFloat.nan => false
  | .float _ => true
  | .str s => s.all validScalar
  | .datetime u => decide (u % 1000000 = 0 ∧ u.natAbs ≤ 2 ^ 43 * 1000000)
  | _ => false

-- ### Theorems.

/-- Claim C1 (code bug evaluation): at `x = -2^31 - 1`, which overflows signed
32 bits, `_python_to_value_handle` still encodes inline with the integer tag,
because the guard written at py_mini_racer.py:1083, `obj - 2**31 <= obj <
2**31`, has a vacuously true left comparison and so only tests `obj < 2**31`;
by contrast `x = 2^31` is promoted to a double as the claim describes. -/
theorem c1_negative_overflow_encoded_inline :
    python_to_value_handle (PyValue.int (-2147483649)) =
      Except.ok (mr_alloc_int_val (-2147483649) MiniRacerTypes.integer) ∧
    python_to_value_handle (PyValue.int 2147483648) =
      Except.ok (mr_alloc_double_val (PyFloat.finite (qOfInt 2147483648))
        MiniRacerTypes.double) := by
  exact ⟨by decide, by decide⟩

/-- Claim C2 (code bug evaluation): `to_python_or_raise` raises the matching
host error class for the parse, execute, OOM, terminated, key-not-found and
bad-value tags, but for a timeout-tagged wire value it raises
`JSConversionException` rather than `JSTimeoutException`, because `_ERRORS`
has no entry for `timeout_exception` (tag 203) and decoding falls through
every tag arm. -/
theorem c2_timeout_tag_raises_conversion :
    to_python_or_raise (RawValue.mk MiniRacerTypes.parse_exception 0 (PyFloat.finite 0) [98, 111, 111, 109] 4) =
      OrRaiseResult.raisedJS ErrKlass.jsParseException [98, 111, 111, 109] ∧
    to_python_or_raise (RawValue.mk MiniRacerTypes.execute_exception 0 (PyFloat.finite 0) [98, 111, 111, 109] 4) =
      OrRaiseResult.raisedJS ErrKlass.jsEvalException [98, 111, 111, 109] ∧
    to_python_or_raise (RawValue.mk MiniRacerTypes.oom_exception 0 (PyFloat.finite 0) [98, 111, 111, 109] 4) =
      OrRaiseResult.raisedJS ErrKlass.jsOOMException [98, 111, 111, 109] ∧
    to_python_or_raise (RawValue.mk MiniRacerTypes.terminated_exception 0 (PyFloat.finite 0) [98, 111, 111, 109] 4) =
      OrRaiseResult.raisedJS ErrKlass.jsTerminatedException [98, 111, 111, 109] ∧
    to_python_or_raise (RawValue.mk MiniRacerTypes.key_exception 0 (PyFloat.finite 0) [98, 111, 111, 109] 4) =
      OrRaiseResult.raisedJS ErrKlass.jsKeyError [98, 111, 111, 109] ∧
    to_python_or_raise (RawValue.mk MiniRacerTypes.value_exception 0 (PyFloat.finite 0) [98, 111, 111, 109] 4) =
      OrRaiseResult.raisedJS ErrKlass.jsValueError [98, 111, 111, 109] ∧
    ERRORS MiniRacerTypes.timeout_exception = Option.none ∧
    to_python_or_raise (RawValue.mk MiniRacerTypes.timeout_exception 0 (PyFloat.finite 0) [98, 111, 111, 109] 4) =
      OrRaiseResult.raisedConversion :=
  ⟨rfl, rfl, rfl, rfl, rfl, rfl, rfl, rfl⟩

/-- Claim C8: `init_mini_racer` initializes at most once: the first call
initializes and stores the handle; a later call with `ignore_duplicate_init`
false raises `LibAlreadyInitializedError`; a later call with it true returns
the stored handle without re-initializing (state unchanged, `_open_dll` not
run). -/
theorem c8_init_at_most_once (h0 h1 : Nat) :
    init_mini_racer (InitState.mk Option.none) false h0 =
      (InitState.mk (some h0), InitOutcome.ok h0, true) ∧
    init_mini_racer (InitState.mk Option.none) true h0 =
      (InitState.mk (some h0), InitOutcome.ok h0, true) ∧
    init_mini_racer (InitState.mk (some h0)) false h1 =
      (InitState.mk (some h0), InitOutcome.raisedLibAlreadyInitializedError, false) ∧
    init_mini_racer (InitState.mk (some h0)) true h1 =
      (InitState.mk (some h0), InitOutcome.ok h0, false) :=
  ⟨rfl, rfl, rfl, rfl⟩

/-- Claim C10: `_python_to_value_handle` encodes a Python bool with the bool
type tag and inline payload 1 (True) or 0 (False), never with the integer tag,
even though `isinstance(b, int)` holds for bools in Python: the bool dispatch
arm precedes the int arm. -/
theorem c10_bool_encoded_with_bool_tag (b : Bool) :
    isinstance_int (PyValue.bool b) = true ∧
    python_to_value_handle (PyValue.bool b) =
      Except.ok (mr_alloc_int_val (if b then 1 else 0) MiniRacerTypes.bool) ∧
    (mr_alloc_int_val (if b then 1 else 0) MiniRacerTypes.bool).type ≠ MiniRacerTypes.integer := by
  cases b <;> exact ⟨rfl, rfl, by decide⟩

-- ### Helper lemmas: UTF-8 round trip.

theorem utf8Encode_nil : utf8Encode [] = [] := rfl

theorem utf8Encode_cons (c : Nat) (s : List Nat) :
    utf8Encode (c :: s) = utf8EncodeChar c ++ utf8Encode s := by
  simp [utf8Encode]

theorem utf8DecAux_nil (fuel : Nat) : utf8DecAux fuel [] = some [] := by
  cases fuel <;> rfl

theorem utf8DecAux_encodeChar (fuel : Nat) (c : Nat) (rest : List Nat) :
    utf8DecAux (fuel + 1) (utf8EncodeChar c ++ rest) =
      Option.map (fun t => c :: t) (utf8DecAux fuel rest) := by
  by_cases h1 : c < 0x80
  · simp only [utf8EncodeChar, if_pos h1, List.cons_append, List.nil_append]
    simp only [utf8DecAux, if_pos h1]
  · by_cases h2 : c < 0x800
    · simp only [utf8EncodeChar, if_neg h1, if_pos h2, List.cons_append, List.nil_append]
      have hb1 : ¬(0xC0 + c / 0x40 < 0x80) := by omega
      have hb2 : ¬(0xC0 + c / 0x40 < 0xC0) := by omega
      have hb3 : 0xC0 + c / 0x40 < 0xE0 := by omega
      have hcont : contByte (0x80 + c % 0x40) = true := by
        simp only [contByte, Bool.and_eq_true, decide_eq_true_eq]
        omega
      simp only [utf8DecAux, if_neg hb1, if_neg hb2, if_pos hb3, hcont, if_pos]
      have hval : (0xC0 + c / 0x40 - 0xC0) * 0x40 + (0x80 + c % 0x40 - 0x80) = c := by omega
      simp only [hval]
    · by_cases h3 : c < 0x10000
      · simp only [utf8EncodeChar, if_neg h1, if_neg h2, if_pos h3, List.cons_append,
          List.nil_append]
        have hb1 : ¬(0xE0 + c / 0x1000 < 0x80) := by omega
        have hb2 : ¬(0xE0 + c / 0x1000 < 0xC0) := by omega
        have hb3 : ¬(0xE0 + c / 0x1000 < 0xE0) := by omega
        have hb4 : 0xE0 + c / 0x1000 < 0xF0 := by omega
        have hc1 : contByte (0x80 + c / 0x40 % 0x40) = true := by
          simp only [contByte, Bool.and_eq_true, decide_eq_true_eq]
          omega
        have hc2 : contByte (0x80 + c % 0x40) = true := by
          simp only [contByte, Bool.and_eq_true, decide_eq_true_eq]
          omega
        simp only [utf8DecAux, if_neg hb1, if_neg hb2, if_neg hb3, if_pos hb4, hc1, hc2,
          Bool.and_self, if_pos]
        have hval : (0xE0 + c / 0x1000 - 0xE0) * 0x1000 + (0x80 + c / 0x40 % 0x40 - 0x80) * 0x40 +
            (0x80 + c % 0x40 - 0x80) = c := by omega
        simp only [hval]
      · simp only [utf8EncodeChar, if_neg h1, if_neg h2, if_neg h3, List.cons_append,
          List.nil_append]
        have hb1 : ¬(0xF0 + c / 0x40000 < 0x80) := by omega
        have hb2 : ¬(0xF0 + c / 0x40000 < 0xC0) := by omega
        have hb3 : ¬(0xF0 + c / 0x40000 < 0xE0) := by omega
        have hb4 : ¬(0xF0 + c / 0x40000 < 0xF0) := by omega
        have hc1 : contByte (0x80 + c / 0x1000 % 0x40) = true := by
          simp only [contByte, Bool.and_eq_true, decide_eq_true_eq]
          omega
        have hc2 : contByte (0x80 + c / 0x40 % 0x40) = true := by
          simp only [contByte, Bool.and_eq_true, decide_eq_true_eq]
          omega
        have hc3 : contByte (0x80 + c % 0x40) = true := by
          simp only [contByte, Bool.and_eq_true, decide_eq_true_eq]
          omega
        simp only [utf8DecAux, if_neg hb1, if_neg hb2, if_neg hb3, if_neg hb4, hc1, hc2, hc3,
          Bool.and_self, if_pos]
        have hval : (0xF0 + c / 0x40000 - 0xF0) * 0x40000 +
            (0x80 + c / 0x1000 % 0x40 - 0x80) * 0x1000 +
            (0x80 + c / 0x40 % 0x40 - 0x80) * 0x40 + (0x80 + c % 0x40 - 0x80) = c := by omega
        simp only [hval]

theorem utf8Encode_length_ge (s : List Nat) : s.length ≤ (utf8Encode s).length := by
  induction s with
  | nil => simp [utf8Encode]
  | cons c s ih =>
    rw [utf8Encode_cons]
    have h1 : 1 ≤ (utf8EncodeChar c).length := by
      unfold utf8EncodeChar
      split
      · simp
      · split
        · simp
        · split <;> simp
    simp only [List.length_append, List.length_cons]
    omega

theorem utf8DecAux_encode (s : List Nat) : ∀ fuel, s.length ≤ fuel →
    utf8DecAux fuel (utf8Encode s) = some s := by
  induction s with
  | nil => intro fuel _; rw [utf8Encode_nil, utf8DecAux_nil]
  | cons c s ih =>
    intro fuel hf
    match fuel, hf with
    | fuel + 1, hf =>
      have hs : s.length ≤ fuel := by
        simp only [List.length_cons] at hf
        omega
      rw [utf8Encode_cons, utf8DecAux_encodeChar, ih fuel hs]
      rfl

theorem utf8Dec_encode (s : List Nat) : utf8Dec (utf8Encode s) = some s :=
  utf8DecAux_encode s _ (utf8Encode_length_ge s)

-- ### Helper lemmas: decoding the wire values the encoder produces.

theorem to_python_alloc_null :
    to_python (mr_alloc_int_val 0 MiniRacerTypes.null) = DecodeResult.val PyValue.none := rfl

theorem to_python_alloc_undefined :
    to_python (mr_alloc_int_val 0 MiniRacerTypes.undefined) = DecodeResult.val PyValue.undefined := rfl

theorem to_python_alloc_bool (v : Int) :
    to_python (mr_alloc_int_val v MiniRacerTypes.bool) = DecodeResult.val (PyValue.bool (v == 1)) := rfl

theorem to_python_alloc_integer (v : Int) :
    to_python (mr_alloc_int_val v MiniRacerTypes.integer) = DecodeResult.val (PyValue.int v) := rfl

theorem to_python_alloc_double (d : PyFloat) :
    to_python (mr_alloc_double_val d MiniRacerTypes.double) =
      DecodeResult.val (PyValue.float d) := rfl

theorem to_python_alloc_date (q : ℚ) :
    to_python (mr_alloc_double_val (PyFloat.finite q) MiniRacerTypes.date) =
      DecodeResult.val
        (PyValue.datetime (fromtimestampUsec (roundDouble (qDivInt q 1000)))) := rfl

theorem to_python_alloc_str (b m : List Nat) (h : utf8Dec b = some m) :
    to_python (mr_alloc_string_val b b.length MiniRacerTypes.str_utf8) =
      DecodeResult.val (PyValue.str m) := by
  simp [to_python, mr_alloc_string_val, ERRORS, MiniRacerTypes.str_utf8,
    MiniRacerTypes.parse_exception, MiniRacerTypes.execute_exception,
    MiniRacerTypes.oom_exception, MiniRacerTypes.terminated_exception,
    MiniRacerTypes.key_exception, MiniRacerTypes.value_exception, MiniRacerTypes.null,
    MiniRacerTypes.undefined, MiniRacerTypes.bool, MiniRacerTypes.integer,
    MiniRacerTypes.double, List.take_length, h]

-- ### Helper lemmas: the encoder on each dispatch arm.

theorem encode_none :
    python_to_value_handle PyValue.none = Except.ok (mr_alloc_int_val 0 MiniRacerTypes.null) := rfl

theorem encode_undefined :
    python_to_value_handle PyValue.undefined =
      Except.ok (mr_alloc_int_val 0 MiniRacerTypes.undefined) := rfl

theorem encode_bool (b : Bool) :
    python_to_value_handle (PyValue.bool b) =
      Except.ok (mr_alloc_int_val (if b then 1 else 0) MiniRacerTypes.bool) := rfl

theorem encode_float (x : PyFloat) :
    python_to_value_handle (PyValue.float x) =
      Except.ok (mr_alloc_double_val x MiniRacerTypes.double) := rfl

theorem encode_datetime (u : Int) :
    python_to_value_handle (PyValue.datetime u) =
      Except.ok (mr_alloc_double_val
        (PyFloat.finite (roundDouble (qMulInt (roundDouble (timestampOfUsec u)) 1000)))
        MiniRacerTypes.date) := rfl

theorem c_int64_of_int_eq_self (x : Int) (h1 : -(2 ^ 63) ≤ x) (h2 : x < 2 ^ 63) :
    c_int64_of_int x = x := by
  rw [c_int64_of_int]
  omega

theorem encode_int32 (x : Int) (h1 : -(2 ^ 63) ≤ x) (h2 : x < 2 ^ 31) :
    python_to_value_handle (PyValue.int x) =
      Except.ok (mr_alloc_int_val x MiniRacerTypes.integer) := by
  unfold python_to_value_handle
  simp only [isinstance_JSObject, is_None, is_JSUndefined, isinstance_bool, isinstance_int,
    pyIntVal, Bool.false_eq_true, if_false, if_true]
  have hg1 : x - 2 ^ 31 ≤ x ∧ x < 2 ^ 31 := ⟨by omega, h2⟩
  rw [if_pos hg1, c_int64_of_int_eq_self x h1 (by omega)]

theorem encode_int_promoted (x : Int) (h2 : 2 ^ 31 ≤ x) (hd : doubleOfInt x = x)
    (hb : x.natAbs < 2 ^ 1024) :
    python_to_value_handle (PyValue.int x) =
      Except.ok (mr_alloc_double_val (PyFloat.finite (qOfInt x)) MiniRacerTypes.double) := by
  unfold python_to_value_handle
  simp only [isinstance_JSObject, is_None, is_JSUndefined, isinstance_bool, isinstance_int,
    pyIntVal, Bool.false_eq_true, if_false, if_true]
  rw [if_neg, c_double_of_int, if_neg, if_neg]
  · rw [hd]
    rfl
  · rw [hd]
    omega
  · omega
  · rw [not_and_or]
    right
    omega

theorem encode_str (s : List Nat) (hs : s.all validScalar = true) :
    python_to_value_handle (PyValue.str s) =
      Except.ok (mr_alloc_string_val (utf8Encode s) (utf8Encode s).length
        MiniRacerTypes.str_utf8) := by
  unfold python_to_value_handle
  simp only [isinstance_JSObject, is_None, is_JSUndefined, isinstance_bool, isinstance_int,
    isinstance_float, isinstance_str, pyStrVal, Bool.false_eq_true, if_false, if_true,
    utf8EncodeStrict, hs]
  rfl

-- ### Helper lemmas: exact rational arithmetic.

theorem qOfInt_eq (n : Int) : qOfInt n = (n : ℚ) := by
  rw [qOfInt, Rat.divInt_one]

theorem qMulInt_eq (q : ℚ) (m : Int) : qMulInt q m = q * m := by
  rw [qMulInt, Rat.divInt_eq_div]
  push_cast
  rw [mul_div_right_comm, Rat.num_div_den]

theorem qDivInt_eq (q : ℚ) (m : Int) : qDivInt q m = q / m := by
  rw [qDivInt, Rat.divInt_eq_div]
  push_cast
  rw [← div_div, Rat.num_div_den]

theorem roundHalfEvenQ_intCast (n : Int) : roundHalfEvenQ (n : ℚ) = n := by
  unfold roundHalfEvenQ
  rw [Rat.num_intCast, Rat.den_intCast]
  have hf : n.fdiv ((1 : Nat) : Int) = n := Int.fdiv_one n
  simp only [hf]
  norm_num

-- The datetime round trip: seconds to milliseconds on the way in, divided
-- back and rounded to microseconds on the way out, is the identity for
-- whole-second datetimes of at most 2^43 seconds from the epoch (every value
-- crossing the boundary is then an integer of at most 53 bits, hence exactly
-- representable in binary64).

theorem excessAux_spec (fuel : Nat) : ∀ m : Nat, m < 2 ^ fuel →
    (m = 0 ∧ excessAux fuel m = 0) ∨
    (1 ≤ excessAux fuel m ∧ 2 ^ (excessAux fuel m - 1) ≤ m ∧ m < 2 ^ excessAux fuel m) := by
  induction fuel with
  | zero =>
    intro m hm
    left
    have h0 : m = 0 := by omega
    subst h0
    exact ⟨rfl, rfl⟩
  | succ fuel ih =>
    intro m hm
    by_cases h0 : m = 0
    · left
      subst h0
      exact ⟨rfl, by rw [excessAux]; simp⟩
    · right
      rw [excessAux, if_neg h0]
      have hm2 : m / 2 < 2 ^ fuel := by
        rw [pow_succ] at hm
        omega
      rcases ih (m / 2) hm2 with ⟨hz, _⟩ | ⟨h1, hlo, hhi⟩
      · have h1 : m = 1 := by omega
        subst h1
        rw [show (1 : Nat) / 2 = 0 from rfl]
        refine ⟨by omega, ?_, ?_⟩
        · rw [show excessAux fuel 0 = 0 by cases fuel <;> rfl]
          norm_num
        · rw [show excessAux fuel 0 = 0 by cases fuel <;> rfl]
          norm_num
      · refine ⟨by omega, ?_, ?_⟩
        · have h2 : 2 ^ excessAux fuel (m / 2) = 2 * 2 ^ (excessAux fuel (m / 2) - 1) := by
            conv_lhs =>
              rw [show excessAux fuel (m / 2) = excessAux fuel (m / 2) - 1 + 1 by omega]
            rw [pow_succ]
            ring
          simp only [Nat.add_sub_cancel]
          omega
        · rw [pow_succ]
          omega

theorem bitLen_spec (m : Nat) (hm : m < 2 ^ 2200) (h0 : m ≠ 0) :
    1 ≤ bitLen m ∧ 2 ^ (bitLen m - 1) ≤ m ∧ m < 2 ^ bitLen m := by
  rcases excessAux_spec 2200 m hm with ⟨hz, _⟩ | h
  · exact absurd hz h0
  · exact h

theorem qMulPow2_intCast_nonneg (a : Int) (k : Int) (hk : 0 ≤ k) :
    qMulPow2 ((a : ℚ)) k = ((a * 2 ^ k.toNat : Int) : ℚ) := by
  rw [qMulPow2, if_pos hk, Rat.num_intCast, Rat.den_intCast]
  norm_num [Rat.divInt_one]

theorem qMulPow2_intCast_nonpos (a : Int) (k : Int) (hk : k ≤ 0) :
    qMulPow2 ((a : ℚ)) k = Rat.divInt a (2 ^ (-k).toNat) := by
  rcases lt_or_eq_of_le hk with hlt | heq
  · rw [qMulPow2, if_neg (by omega), Rat.num_intCast, Rat.den_intCast]
    norm_num
  · subst heq
    rw [qMulPow2, if_pos le_rfl, Rat.num_intCast, Rat.den_intCast]
    norm_num

theorem divInt_mul_pow_cancel (a : Int) (t : Nat) :
    Rat.divInt (a * 2 ^ t) (2 ^ t) = ((a : ℚ)) := by
  rw [show ((2 : Int) ^ t) = 1 * 2 ^ t by ring, show a * (1 * 2 ^ t) = a * 2 ^ t by ring,
    Rat.divInt_mul_right (by positivity), Rat.divInt_one]

-- `float(n)` is exact for integers of at most 53 bits.
theorem roundDouble_intCast (n : Int) (hb : n.natAbs ≤ 2 ^ 53) :
    roundDouble ((n : ℚ)) = ((n : ℚ)) := by
  by_cases h0 : n = 0
  · subst h0
    norm_num [roundDouble]
  · have hna : n.natAbs ≠ 0 := by omega
    have hlt : n.natAbs < 2 ^ 2200 := by
      have : (2 : Nat) ^ 53 < 2 ^ 2200 := Nat.pow_lt_pow_right (by norm_num) (by norm_num)
      omega
    obtain ⟨hB1, hBlo, hBhi⟩ := bitLen_spec n.natAbs hlt hna
    have hB54 : bitLen n.natAbs ≤ 54 := by
      by_contra hc
      have h54 : (2 : Nat) ^ 54 ≤ 2 ^ (bitLen n.natAbs - 1) :=
        Nat.pow_le_pow_right (by norm_num) (by omega)
      have : (2 : Nat) ^ 53 < 2 ^ 54 := Nat.pow_lt_pow_right (by norm_num) (by norm_num)
      omega
    rw [roundDouble]
    rw [if_neg (by rw [Rat.num_intCast]; exact h0)]
    simp only [Rat.num_intCast, Rat.den_intCast, show bitLen (1 : Nat) = 1 from rfl,
      Nat.cast_one]
    generalize hBdef : bitLen n.natAbs = B at hB1 hBlo hBhi hB54
    rw [show -(((B : Int)) - 1 - 53) = ((54 - B : Nat) : Int) by omega,
      qMulPow2_intCast_nonneg n _ (by omega), Int.toNat_natCast, roundHalfEvenQ_intCast]
    by_cases hcase : (n * 2 ^ (54 - B)).natAbs ≤ 2 ^ 53
    · rw [if_pos hcase, qOfInt_eq, qMulPow2_intCast_nonpos _ _ (by omega),
        show (-(((B : Int)) - 1 - 53)).toNat = 54 - B by omega, divInt_mul_pow_cancel]
    · rw [if_neg hcase]
      have hB53 : B ≤ 53 := by
        by_contra hc
        have hB : B = 54 := by omega
        rw [hB] at hcase
        norm_num at hcase
        omega
      rw [show -(((B : Int)) - 1 - 53 + 1) = ((53 - B : Nat) : Int) by omega,
        qMulPow2_intCast_nonneg n _ (by omega), Int.toNat_natCast, roundHalfEvenQ_intCast,
        qOfInt_eq, qMulPow2_intCast_nonpos _ _ (by omega),
        show (-(((B : Int)) - 1 - 53 + 1)).toNat = 53 - B by omega, divInt_mul_pow_cancel]

theorem datetime_roundtrip (u : Int) (hu : u % 1000000 = 0)
    (hb : u.natAbs ≤ 2 ^ 43 * 1000000) :
    fromtimestampUsec (roundDouble (qDivInt (roundDouble (qMulInt (roundDouble
      (timestampOfUsec u)) 1000)) 1000)) = u := by
  obtain ⟨s, rfl⟩ : ∃ s, u = s * 1000000 := ⟨u / 1000000, by omega⟩
  have hs : s.natAbs ≤ 2 ^ 43 := by
    rw [Int.natAbs_mul, show ((1000000 : Int)).natAbs = 1000000 from rfl] at hb
    omega
  have h1 : timestampOfUsec (s * 1000000) = ((s : Int) : ℚ) := by
    rw [timestampOfUsec, qOfInt_eq, qDivInt_eq]
    push_cast
    field_simp
  rw [h1, roundDouble_intCast s (by omega)]
  have h2 : qMulInt (((s : Int)) : ℚ) 1000 = ((s * 1000 : Int) : ℚ) := by
    rw [qMulInt_eq]
    push_cast
    ring
  rw [h2, roundDouble_intCast (s * 1000)
    (by rw [Int.natAbs_mul, show ((1000 : Int)).natAbs = 1000 from rfl]; omega)]
  have h3 : qDivInt (((s * 1000 : Int)) : ℚ) 1000 = ((s : Int) : ℚ) := by
    rw [qDivInt_eq]
    push_cast
    field_simp
  rw [h3, roundDouble_intCast s (by omega), fromtimestampUsec]
  have h4 : qMulInt (((s : Int)) : ℚ) 1000000 = ((s * 1000000 : Int) : ℚ) := by
    rw [qMulInt_eq]
    push_cast
    ring
  rw [h4, roundHalfEvenQ_intCast]

/-- Claim C4 (counterexample): the round trip is not the identity on every
scalar or datetime: the int `2^53 + 1` is promoted to a double and rounded to
`2^53`, which is not numerically equal to it; `float('nan')` decodes to NaN,
which compares unequal to itself; and for the datetime
`3000-01-01T00:00:00.000001Z` the microsecond lies below the binary64 ulp of
its timestamp, so it is lost when `timestamp()` rounds. -/
theorem c4_roundtrip_counterexample :
    pyRoundtrip (PyValue.int 9007199254740993) =
      Except.ok (DecodeResult.val (PyValue.float (PyFloat.finite (qOfInt 9007199254740992)))) ∧
    pyRoundtripOk (PyValue.int 9007199254740993) = false ∧
    pyRoundtripOk (PyValue.float PyFloat.nan) = false ∧
    pyRoundtrip (PyValue.datetime 32503680000000001) =
      Except.ok (DecodeResult.val (PyValue.datetime 32503680000000000)) ∧
    pyRoundtripOk (PyValue.datetime 32503680000000001) = false :=
  ⟨by decide, by decide, by decide, by decide, by decide⟩

/-- Claim C4 (amended): `decode(encode(x)) == x` holds for None, JSUndefined,
bools, floats other than NaN, strings of Unicode scalar values, whole-second
datetimes of at most `2^43` seconds from the epoch (the boundary crossing
multiplies and divides the binary64 timestamp by 1000, which is exact for
such values), and those ints that either take the inline-integer path
(`-2^63 ≤ x < 2^31`) or are exactly representable as an IEEE-754 double. -/
theorem c4_roundtrip_amended (v : PyValue) (h : roundtrippable v = true) :
    pyRoundtripOk v = true := by
  cases v with
  | none => decide
  | undefined => decide
  | bool b => cases b <;> decide
  | int x =>
    simp only [roundtrippable, decide_eq_true_eq] at h
    rcases h with ⟨h1, h2⟩ | ⟨h2, hd, hb⟩
    · rw [pyRoundtripOk, pyRoundtrip, encode_int32 x h1 h2]
      simp [Except.map, to_python_alloc_integer, pyEq, numVal, pyFloatEq]
    · rw [pyRoundtripOk, pyRoundtrip, encode_int_promoted x h2 hd hb]
      simp [Except.map, to_python_alloc_double, pyEq, numVal, pyFloatEq]
  | float x =>
    cases x with
    | finite q =>
      rw [pyRoundtripOk, pyRoundtrip, encode_float]
      simp [Except.map, to_python_alloc_double, pyEq, numVal, pyFloatEq]
    | inf => decide
    | negInf => decide
    | nan => simp [roundtrippable] at h
  | str s =>
    simp only [roundtrippable] at h
    rw [pyRoundtripOk, pyRoundtrip, encode_str s h]
    simp [Except.map, to_python_alloc_str (utf8Encode s) s (utf8Dec_encode s), pyEq, numVal]
  | datetime u =>
    simp only [roundtrippable, decide_eq_true_eq] at h
    rw [pyRoundtripOk, pyRoundtrip, encode_datetime]
    simp [Except.map, to_python_alloc_date, datetime_roundtrip u h.1 h.2, pyEq, numVal]
  | memview b => simp [roundtrippable] at h
  | jsObj k r => simp [roundtrippable] at h

/-- Claim C4 (witness): the amended round trip at a string containing an
embedded NUL and a non-ASCII character, at the int `2^31`, and at the
whole-second datetime one second after the epoch. -/
theorem c4_roundtrip_amended_witness :
    roundtrippable (PyValue.str [97, 0, 916]) = true ∧
    pyRoundtripOk (PyValue.str [97, 0, 916]) = true ∧
    roundtrippable (PyValue.int 2147483648) = true ∧
    pyRoundtripOk (PyValue.int 2147483648) = true ∧
    roundtrippable (PyValue.datetime 1000000) = true ∧
    pyRoundtripOk (PyValue.datetime 1000000) = true :=
  ⟨by decide, c4_roundtrip_amended _ (by decide), by decide, c4_roundtrip_amended _ (by decide),
    by decide, c4_roundtrip_amended _ (by decide)⟩

-- ### Helper lemmas: dispatcher map with fresh ids.

theorem find_none_of_all_lt {κ : Type} (l : List (Nat × κ)) (n : Nat)
    (h : l.all (fun p => p.1 < n) = true) : l.find? (fun p => p.1 == n) = Option.none := by
  induction l with
  | nil => rfl
  | cons p l ih =>
    simp only [List.all_cons, Bool.and_eq_true, decide_eq_true_eq] at h
    simp only [List.find?]
    have hb : (p.1 == n) = false := by
      simp only [beq_eq_false_iff_ne, ne_eq]
      omega
    rw [hb]
    exact ih h.2

theorem filter_ne_of_all_lt {κ : Type} (l : List (Nat × κ)) (n : Nat)
    (h : l.all (fun p => p.1 < n) = true) : l.filter (fun p => p.1 != n) = l := by
  induction l with
  | nil => rfl
  | cons p l ih =>
    simp only [List.all_cons, Bool.and_eq_true, decide_eq_true_eq] at h
    simp only [List.filter]
    have hb : (p.1 != n) = true := by
      simp only [bne_iff_ne, ne_eq]
      omega
    rw [hb, ih h.2]

theorem any_eq_false_of_all_lt {κ : Type} (l : List (Nat × κ)) (n : Nat)
    (h : l.all (fun p => p.1 < n) = true) : l.any (fun p => p.1 == n) = false := by
  induction l with
  | nil => rfl
  | cons p l ih =>
    simp only [List.all_cons, Bool.and_eq_true, decide_eq_true_eq] at h
    simp only [List.any_cons, Bool.or_eq_false_iff]
    refine ⟨?_, ih h.2⟩
    simp only [beq_eq_false_iff_ne, ne_eq]
    omega

/-- Claim C3 (counterexample): the shared completion callback `mr_callback`
looks the continuation up without removing it, so a second delivery for the
same id still finds a continuation to invoke: with id 0 registered, two
consecutive deliveries both find it and the map is unchanged in between. -/
theorem c3_second_delivery_finds_continuation :
    (mr_callback (Dispatcher.mk 1 [(0, 7)]) 0).1 = Dispatcher.mk 1 [(0, 7)] ∧
    (mr_callback (Dispatcher.mk 1 [(0, 7)]) 0).2 = some 7 ∧
    (mr_callback ((mr_callback (Dispatcher.mk 1 [(0, 7)]) 0).1) 0).2 = some 7 :=
  ⟨rfl, rfl, rfl⟩

/-- Claim C3 (amended): the continuation is removed from the active-callbacks
map exactly once, not by the delivery callback but by the host-side task
lifecycle (the `finally` block of `_run_mr_task`, or the promise-callback
cleanups): a fresh id from the counter was never registered before, the
lifecycle's single `pop` finds and removes it, restoring the original map, a
delivery after the removal finds no continuation, and a second `pop` would hit
a `KeyError`; delivery itself leaves the map unchanged. -/
theorem c3_removed_exactly_once_by_lifecycle {κ : Type} (d : Dispatcher κ) (k : κ)
    (hinv : cbInvariant d = true) :
    lookupCb d d.nextCallbackId = Option.none ∧
    lookupCb (registerCb d k) d.nextCallbackId = some k ∧
    (mr_callback (registerCb d k) d.nextCallbackId).1 = registerCb d k ∧
    (popCb (registerCb d k) d.nextCallbackId).2 = true ∧
    (popCb (registerCb d k) d.nextCallbackId).1.activeCallbacks = d.activeCallbacks ∧
    lookupCb (popCb (registerCb d k) d.nextCallbackId).1 d.nextCallbackId = Option.none ∧
    (popCb (popCb (registerCb d k) d.nextCallbackId).1 d.nextCallbackId).2 = false := by
  have hfind := find_none_of_all_lt d.activeCallbacks d.nextCallbackId hinv
  have hfilter := filter_ne_of_all_lt d.activeCallbacks d.nextCallbackId hinv
  have hany := any_eq_false_of_all_lt d.activeCallbacks d.nextCallbackId hinv
  refine ⟨?_, ?_, rfl, ?_, ?_, ?_, ?_⟩
  · rw [lookupCb, hfind]
    rfl
  · simp [lookupCb, registerCb, List.find?]
  · simp [popCb, registerCb, List.any_cons]
  · simp only [popCb, registerCb, List.filter]
    rw [show ((d.nextCallbackId != d.nextCallbackId) = false) by simp, hfilter]
  · simp only [lookupCb, popCb, registerCb, List.filter]
    rw [show ((d.nextCallbackId != d.nextCallbackId) = false) by simp, hfilter, hfind]
    rfl
  · simp only [popCb, registerCb, List.filter]
    rw [show ((d.nextCallbackId != d.nextCallbackId) = false) by simp, hfilter, hany]

/-- Claim C3 (witness): the amended lifecycle on an empty dispatcher. -/
theorem c3_removed_exactly_once_witness :
    cbInvariant (Dispatcher.mk 0 ([] : List (Nat × Nat))) = true ∧
    (popCb (registerCb (Dispatcher.mk 0 ([] : List (Nat × Nat))) 5) 0).2 = true ∧
    lookupCb (popCb (registerCb (Dispatcher.mk 0 ([] : List (Nat × Nat))) 5) 0).1 0 =
      Option.none :=
  ⟨rfl, (c3_removed_exactly_once_by_lifecycle (Dispatcher.mk 0 []) 5 rfl).2.2.2.1,
    (c3_removed_exactly_once_by_lifecycle (Dispatcher.mk 0 []) 5 rfl).2.2.2.2.2.1⟩

/-- Claim C5: `JSArray.__delitem__` raises `JSArrayIndexError` locally (no
engine splice happens) at any index `i ≥ len(a)` or `i < -len(a)` — which
covers `len(a)` and `-len(a)-1` — and deleting at `-1` on a nonempty array
splices out exactly the last element. -/
theorem c5_delitem_bounds (l : List PyValue) (i : Int) :
    ((i ≥ (l.length : Int) ∨ i < -(l.length : Int)) →
      JSArray.delitem l i = ArrayOpOutcome.indexError) ∧
    (1 ≤ l.length → JSArray.delitem l (-1) = ArrayOpOutcome.spliced l.dropLast) := by
  constructor
  · intro h
    rw [JSArray.delitem, if_pos h]
  · intro h
    rw [JSArray.delitem, if_neg (by omega),
      show c_int32_of_int (-1) = (-1 : Int) by decide, spliceArray]
    have hneg : ((-1 : Int) < 0) := by norm_num
    simp only [if_pos hneg]
    have hstart : (max ((l.length : Int) + (-1)) 0).toNat = l.length - 1 := by omega
    rw [hstart]
    have hdrop : l.length - 1 + 1 = l.length := by omega
    rw [hdrop, List.drop_length, List.dropLast_eq_take]
    simp

/-- Claim C5 (witness): bounds and last-element deletion on `[1, 2]`. -/
theorem c5_delitem_bounds_witness :
    ((2 : Int) ≥ (([PyValue.int 1, PyValue.int 2] : List PyValue).length : Int) ∨
      (2 : Int) < -(([PyValue.int 1, PyValue.int 2] : List PyValue).length : Int)) ∧
    JSArray.delitem [PyValue.int 1, PyValue.int 2] 2 = ArrayOpOutcome.indexError ∧
    1 ≤ ([PyValue.int 1, PyValue.int 2] : List PyValue).length ∧
    JSArray.delitem [PyValue.int 1, PyValue.int 2] (-1) =
      ArrayOpOutcome.spliced [PyValue.int 1] :=
  ⟨by decide, (c5_delitem_bounds [PyValue.int 1, PyValue.int 2] 2).1 (by decide), by decide,
    (c5_delitem_bounds [PyValue.int 1, PyValue.int 2] (-1)).2 (by decide)⟩

/-- Claim C6 (counterexample): `JSArray.insert` performs no local bounds
check and reports no out-of-range error: inserting at index 10 into a
one-element array succeeds (the splice primitive silently clamps the index
and appends at the end), and inserting at index `2^31` wraps through the
`c_int32` binding to `-2^31` and prepends. -/
theorem c6_insert_out_of_range_no_error :
    JSArray.insert [PyValue.int 1] 10 (PyValue.int 2) =
      ArrayOpOutcome.spliced [PyValue.int 1, PyValue.int 2] ∧
    JSArray.insert [PyValue.int 1] 10 (PyValue.int 2) ≠ ArrayOpOutcome.indexError ∧
    JSArray.insert [PyValue.int 1] 2147483648 (PyValue.int 2) =
      ArrayOpOutcome.spliced [PyValue.int 2, PyValue.int 1] :=
  ⟨by decide, by decide, by decide⟩

/-- Claim C6 (amended): `JSArray.insert` never raises an index error; the
insertion index goes through the `c_int32` argument conversion of
`mr_splice_array`, which silently wraps it into `[-2^31, 2^31)` (so index
`2^31` arrives as `-2^31`), and the engine's splice then silently clamps the
wrapped index: at or beyond `len(a)` the element is appended, below `-len(a)`
it is prepended. -/
theorem c6_insert_clamps (l : List PyValue) (i : Int) (v : PyValue) :
    JSArray.insert l i v ≠ ArrayOpOutcome.indexError ∧
    ((l.length : Int) ≤ c_int32_of_int i →
      JSArray.insert l i v = ArrayOpOutcome.spliced (l ++ [v])) ∧
    (c_int32_of_int i < -(l.length : Int) →
      JSArray.insert l i v = ArrayOpOutcome.spliced (v :: l)) := by
  refine ⟨by simp [JSArray.insert], ?_, ?_⟩
  · intro h
    rw [JSArray.insert, spliceArray]
    have hge : ¬(c_int32_of_int i < 0) := by omega
    simp only [if_neg hge]
    have hstart : (min (c_int32_of_int i) (l.length : Int)).toNat = l.length := by omega
    rw [hstart]
    simp [List.drop_length]
  · intro h
    rw [JSArray.insert, spliceArray]
    have hlt : c_int32_of_int i < 0 := by omega
    simp only [if_pos hlt]
    have hstart : (max ((l.length : Int) + c_int32_of_int i) 0).toNat = 0 := by omega
    rw [hstart]
    simp

/-- Claim C6 (witness): appending at an in-range out-of-bounds index, and
prepending at index `2^31`, which the `c_int32` conversion wraps to `-2^31`. -/
theorem c6_insert_clamps_witness :
    (([PyValue.int 1] : List PyValue).length : Int) ≤ c_int32_of_int 6 ∧
    JSArray.insert [PyValue.int 1] 6 (PyValue.int 2) =
      ArrayOpOutcome.spliced [PyValue.int 1, PyValue.int 2] ∧
    c_int32_of_int 2147483648 < -(([PyValue.int 1] : List PyValue).length : Int) ∧
    JSArray.insert [PyValue.int 1] 2147483648 (PyValue.int 2) =
      ArrayOpOutcome.spliced [PyValue.int 2, PyValue.int 1] :=
  ⟨by decide, (c6_insert_clamps [PyValue.int 1] 6 (PyValue.int 2)).2.1 (by decide), by decide,
    (c6_insert_clamps [PyValue.int 1] 2147483648 (PyValue.int 2)).2.2 (by decide)⟩

-- ### Helper lemma: a blocking get on a never-settled future times out.

theorem syncGet_timeout {α ε : Type} (f : SyncFuture α ε) (hs : f.settled = false) :
    ∀ waits : List Bool, false ∈ waits →
      syncGet f waits = some SyncGetResult.raisedTimeout := by
  intro waits
  induction waits with
  | nil => intro h; cases h
  | cons w rest ih =>
    intro h
    cases w
    · simp [syncGet, hs]
    · have hrest : false ∈ rest := by
        rcases List.mem_cons.mp h with h1 | h1
        · cases h1
        · exact h1
      simp only [syncGet, hs, Bool.false_eq_true, if_false, if_true]
      exact ih hrest

/-- Claim C7: blocking on a promise that never settles with a finite timeout:
once a condition-variable wait times out (returns false) before any
settlement, `get_from_promise` raises `JSTimeoutException`; the attachment is
not cancelled — both continuations registered for the promise stay in the
active-callbacks map, so a later settlement delivery still finds its
continuation. -/
theorem c7_get_timeout_keeps_attachment {κ α ε : Type} (d : Dispatcher κ)
    (onResolved onRejected : κ) (f : SyncFuture α ε) (waits : List Bool)
    (hs : f.settled = false) (ht : false ∈ waits) :
    (get_from_promise d onResolved onRejected f waits).2 =
      some SyncGetResult.raisedTimeout ∧
    lookupCb (get_from_promise d onResolved onRejected f waits).1 d.nextCallbackId =
      some onResolved ∧
    lookupCb (get_from_promise d onResolved onRejected f waits).1 (d.nextCallbackId + 1) =
      some onRejected ∧
    (mr_callback (get_from_promise d onResolved onRejected f waits).1 d.nextCallbackId).2 =
      some onResolved := by
  have hne : ((d.nextCallbackId + 1 == d.nextCallbackId) = false) := by
    simp only [beq_eq_false_iff_ne, ne_eq]
    omega
  refine ⟨syncGet_timeout f hs waits ht, ?_, ?_, ?_⟩
  · simp [get_from_promise, attachPromiseCallbacks, registerCb, lookupCb, List.find?, hne]
  · simp [get_from_promise, attachPromiseCallbacks, registerCb, lookupCb, List.find?]
  · simp [get_from_promise, attachPromiseCallbacks, registerCb, mr_callback, lookupCb,
      List.find?, hne]

/-- Claim C7 (witness): an empty dispatcher, a never-settled future over
`Nat` results, and a single timed-out wait. -/
theorem c7_get_timeout_witness :
    (SyncFuture.mk false Option.none (Option.none : Option Nat) : SyncFuture Nat Nat).settled =
      false ∧
    false ∈ [false] ∧
    (get_from_promise (Dispatcher.mk 0 ([] : List (Nat × Nat))) 8 9
      (SyncFuture.mk false Option.none Option.none : SyncFuture Nat Nat) [false]).2 =
      some SyncGetResult.raisedTimeout ∧
    lookupCb (get_from_promise (Dispatcher.mk 0 ([] : List (Nat × Nat))) 8 9
      (SyncFuture.mk false Option.none Option.none : SyncFuture Nat Nat) [false]).1 0 =
      some 8 :=
  ⟨rfl, by decide,
    (c7_get_timeout_keeps_attachment (Dispatcher.mk 0 []) 8 9
      (SyncFuture.mk false Option.none Option.none) [false] rfl (by decide)).1,
    (c7_get_timeout_keeps_attachment (Dispatcher.mk 0 []) 8 9
      (SyncFuture.mk false Option.none Option.none) [false] rfl (by decide)).2.1⟩

/-- Claim C9: the `JSPromiseError` message is built from the rejection reason
by preferring the reason's "stack" property when the reason is a JS mapped
object containing that key, and otherwise using the reason's string form
`str(reason)`. -/
theorem c9_rejection_message (strFn : PyValue → List Nat)
    (hstr : ∀ s, strFn (PyValue.str s) = s) (r : ReasonView) :
    (r.isMappedObject = true → ∀ v, reasonGetProp r stackKey = some v →
      JSPromiseErrorMessage strFn r =
        cps "JavaScript rejected promise with reason: " ++ strFn v ++ cps "\n") ∧
    ((r.isMappedObject = false ∨ reasonContains r stackKey = false) →
      JSPromiseErrorMessage strFn r =
        cps "JavaScript rejected promise with reason: " ++ r.strForm ++ cps "\n") := by
  constructor
  · intro hm v hv
    rw [JSPromiseErrorMessage, get_exception_msg, if_neg (by simp [hm]),
      if_pos (by simp [reasonContains, hv]), hv]
    rfl
  · intro h
    by_cases hm : r.isMappedObject = false
    · rw [JSPromiseErrorMessage, get_exception_msg, if_pos hm, hstr]
    · have hc : reasonContains r stackKey = false := by
        rcases h with h1 | h1
        · exact absurd h1 hm
        · exact h1
      rw [JSPromiseErrorMessage, get_exception_msg, if_neg hm, if_neg (by simp [hc]), hstr]

/-- Claim C9 (witness): a mapped-object reason with a "stack" property and a
non-mapped reason, rendered through a concrete `str()`. -/
theorem c9_rejection_message_witness :
    (∀ s, pyStrModel (PyValue.str s) = s) ∧
    reasonGetProp (ReasonView.mk true [(stackKey, PyValue.str [101])] [111]) stackKey =
      some (PyValue.str [101]) ∧
    JSPromiseErrorMessage pyStrModel (ReasonView.mk true [(stackKey, PyValue.str [101])] [111]) =
      cps "JavaScript rejected promise with reason: " ++ [101] ++ cps "\n" ∧
    JSPromiseErrorMessage pyStrModel (ReasonView.mk false [] [111]) =
      cps "JavaScript rejected promise with reason: " ++ [111] ++ cps "\n" :=
  ⟨fun s => rfl, by decide,
    (c9_rejection_message pyStrModel (fun s => rfl)
      (ReasonView.mk true [(stackKey, PyValue.str [101])] [111])).1 rfl (PyValue.str [101])
      (by decide),
    (c9_rejection_message pyStrModel (fun s => rfl) (ReasonView.mk false [] [111])).2
      (Or.inl rfl)⟩
